import Mathlib

/-!
Shallow embedding of `src/connection_pool_demo.py` (the `PooledConnection`
dataclass and the `SimpleConnectionPool` class) and proofs of the spec's
claims about it.

Modelling conventions:
* A `PooledConnection` is `@dataclass(unsafe_hash=True)`, so its generated
  `__hash__`/`__eq__` range over *all* fields — including the mutable
  `last_used` and `in_use`.  The Python sets (`all_connections`,
  `borrowed_connections`) therefore key members by the full field values,
  and a member mutated after insertion sits under a stale hash: a later
  `discard`/`in` with the object's current values deterministically
  misses, and a probe with the old values also misses (the stored object's
  equality check uses its current, changed fields).  The model stores each
  set entry as the member's field snapshot at insertion time
  (`Finset PooledConnection`); `discard`/`in`/`remove` with a value `v`
  succeed exactly when `v` equals a stored snapshot.  This is faithful to
  every lookup the program performs; it additionally admits a probe with a
  stale snapshot value hitting (impossible for real callers, who hold the
  mutated object), which only enlarges the set of modelled behaviours and
  so is conservative for the invariants.
* The socket object's identity is the `id` field (sockets are distinct
  across connections, so field equality never identifies two different
  connections); the `queue.Queue` of available connections is a FIFO
  `List PooledConnection` of current values (head is popped first by
  `get_nowait`, `put` appends at the back; queued objects are not mutated
  while queued).
* Wall-clock time is an integer `now` supplied to each operation; a whole
  pool operation executes atomically at one instant, so the elapsed time
  inside `get_connection`'s while-loop is `0` and the loop condition
  `time.time() - start_time < timeout` is `0 < timeout` throughout the
  call.
* `PooledConnection.is_alive` inspects the live socket, an external
  effect; it is modelled by an oracle `alive : Nat → Bool` giving the
  probe's answer for each connection id.  Likewise the success of
  `socket.connect` in `_create_new_connection` is an oracle `connect_ok`,
  and the connection (if any) delivered to the blocking
  `available_connections.get(timeout=...)` call is an oracle
  `arrival : Option PooledConnection`.
* `conn.socket.close()` events are recorded in a trace list `closed`
  (most recent first).
* `shutdown` holds the non-reentrant `threading.Lock`
  `all_connections_lock` while calling `_remove_connection`, which
  re-acquires the same lock: with a non-empty registry the call closes the
  first iterated socket and then blocks forever.  The function `shutdown`
  returns `none` for the call that never returns; `shutdown_stuck` is the
  lasting observable state of such a deadlocked call.
-/

namespace ConnectionPool

/-- One pooled connection: the Python `PooledConnection` dataclass.  The
`socket` field is abstracted to the identity `id` (distinct connections
have distinct sockets); `created_at`, `last_used` and `in_use` are the
dataclass fields that enter the generated hash and equality. -/
structure PooledConnection where
  id : Nat
  created_at : Int
  last_used : Int
  in_use : Bool
deriving DecidableEq

/-- The constructor arguments of `SimpleConnectionPool.__init__` that
parameterise behaviour: `max_connections` and `connection_ttl`. -/
structure PoolConfig where
  max_connections : Nat
  connection_ttl : Int
deriving DecidableEq

/-- The mutable state of a `SimpleConnectionPool`:

* `available_connections` — the `queue.Queue` of idle connections, holding
  each member's current field values (head = next `get_nowait` result);
* `all_connections` — the value-keyed set of registry entries: each entry
  is the field snapshot a connection had when it was `add`ed (always its
  creation snapshot);
* `borrowed_connections` — the value-keyed set of borrowed entries: each
  entry is the field snapshot the connection had at its `add`;
* `nextId` — fresh-identity counter standing for the identity of the next
  socket object `_create_new_connection` would allocate;
* `cleanup_running` — the flag read by the background cleanup thread;
* `closed` — trace of `socket.close()` events (most recent first). -/
structure PoolState where
  available_connections : List PooledConnection
  all_connections : Finset PooledConnection
  borrowed_connections : Finset PooledConnection
  nextId : Nat
  cleanup_running : Bool
  closed : List Nat
deriving DecidableEq

/-- `PooledConnection.is_expired`: `(time.time() - self.last_used) > ttl_seconds`. -/
def is_expired (conn : PooledConnection) (ttl_seconds now : Int) : Bool :=
  decide (now - conn.last_used > ttl_seconds)

/-- `SimpleConnectionPool._remove_connection`: `conn.close()` (traced),
then `all_connections.discard(conn)`.  The discard compares by the
dataclass value-hash, so it is a `Finset.erase` of the connection's
*current* field values: it removes the registry entry only when the entry
still equals those values, and silently misses (is the identity) for any
connection mutated since registration — in particular for every
once-released connection. -/
def remove_connection (s : PoolState) (conn : PooledConnection) : PoolState :=
  { s with closed := conn.id :: s.closed,
           all_connections := s.all_connections.erase conn }

/-- The body of the first phase of `get_connection`: the
`while time.time() - start_time < timeout` loop that repeatedly calls
`available_connections.get_nowait()`.  The list argument is the current
queue contents; the loop pops the head, closes it and retries if it is
expired or fails `is_alive` (the registry discard misses for these
once-released values), and otherwise sets `in_use`/`last_used` *first*
and then records the refreshed values in `borrowed_connections` and
returns the connection.  On `queue.Empty` the loop breaks. -/
def drain_loop (cfg : PoolConfig) (now : Int) (alive : Nat → Bool) :
    List PooledConnection → PoolState → Option PooledConnection × PoolState
  | [], s => (none, { s with available_connections := [] })
  | conn :: rest, s =>
      if is_expired conn cfg.connection_ttl now then
        drain_loop cfg now alive rest
          (remove_connection { s with available_connections := rest } conn)
      else if alive conn.id then
        (some { conn with in_use := true, last_used := now },
         { s with available_connections := rest,
                  borrowed_connections :=
                    insert { conn with in_use := true, last_used := now }
                      s.borrowed_connections })
      else
        drain_loop cfg now alive rest
          (remove_connection { s with available_connections := rest } conn)

/-- The final phase of `get_connection`: `remaining_timeout = timeout -
elapsed` (elapsed is `0` in the atomic-time model); if it is non-positive
the call returns `None`; otherwise the pool blocks on
`available_connections.get(timeout=remaining_timeout)`.  `arrival` is the
connection that call delivers (`none` = `queue.Empty`).  A delivered
connection is validated once: expired → closed (registry discard misses),
return `None`; alive → `borrowed_connections.add(conn)` happens *before*
the `in_use`/`last_used` mutations, so the borrowed entry is keyed by the
stale pre-refresh snapshot while the refreshed connection is returned;
dead → closed, return `None`. -/
def blocking_phase (cfg : PoolConfig) (now timeout : Int)
    (alive : Nat → Bool) (arrival : Option PooledConnection)
    (s : PoolState) : Option PooledConnection × PoolState :=
  if timeout ≤ 0 then (none, s)
  else
    match arrival with
    | none => (none, s)
    | some conn =>
        if is_expired conn cfg.connection_ttl now then
          (none, remove_connection s conn)
        else if alive conn.id then
          (some { conn with in_use := true, last_used := now },
           { s with borrowed_connections := insert conn s.borrowed_connections })
        else
          (none, remove_connection s conn)

/-- The middle phase of `get_connection`: under `all_connections_lock`, if
`len(all_connections) < max_connections` call `_create_new_connection`; on
success (`connect_ok`) register the fresh connection (creation snapshot:
`created_at = last_used = now`, `in_use = True`) in `all_connections` and
`borrowed_connections` and return it (`conn.in_use = True` afterwards is a
no-op).  On connect failure, or when at capacity, fall through to the
blocking wait. -/
def create_or_wait (cfg : PoolConfig) (now timeout : Int)
    (alive : Nat → Bool) (connect_ok : Bool) (arrival : Option PooledConnection)
    (s : PoolState) : Option PooledConnection × PoolState :=
  if s.all_connections.card < cfg.max_connections then
    if connect_ok then
      (some ⟨s.nextId, now, now, true⟩,
       { s with all_connections :=
                  insert ⟨s.nextId, now, now, true⟩ s.all_connections,
                borrowed_connections :=
                  insert ⟨s.nextId, now, now, true⟩ s.borrowed_connections,
                nextId := s.nextId + 1 })
    else blocking_phase cfg now timeout alive arrival s
  else blocking_phase cfg now timeout alive arrival s

/-- `SimpleConnectionPool.get_connection(timeout)`, executed atomically at
instant `now`: drain the idle queue while the time budget is positive
(`0 < timeout` in the atomic-time model), then try to create a new
connection under the capacity check, then block on the queue for the
remaining budget. -/
def get_connection (cfg : PoolConfig) (now timeout : Int)
    (alive : Nat → Bool) (connect_ok : Bool) (arrival : Option PooledConnection)
    (s : PoolState) : Option PooledConnection × PoolState :=
  match (if 0 < timeout then drain_loop cfg now alive s.available_connections s
         else (none, s)) with
  | (some conn, s1) => (some conn, s1)
  | (none, s1) => create_or_wait cfg now timeout alive connect_ok arrival s1

/-- `SimpleConnectionPool.return_connection(conn)`, executed atomically at
instant `now` on the connection's current field values.  The Bool result
is `false` when the `ValueError("Connection was not borrowed from this
pool")` is raised; the membership test `conn not in
self.borrowed_connections` is by the value-hash, so it succeeds only when
a borrowed entry equals the connection's current values — an entry
recorded by the blocking phase (pre-refresh snapshot) is never found.  The
raise happens before any mutation, so the paired state is the entry state.
On success the matching entry is removed, `in_use` is cleared and
`last_used` refreshed, and the connection is closed if expired or dead
(the registry discard missing either way), else pushed onto the idle
queue. -/
def return_connection (cfg : PoolConfig) (now : Int) (alive : Nat → Bool)
    (conn : PooledConnection) (s : PoolState) : Bool × PoolState :=
  if conn ∈ s.borrowed_connections then
    let s1 := { s with borrowed_connections := s.borrowed_connections.erase conn }
    let c := { conn with in_use := false, last_used := now }
    if is_expired c cfg.connection_ttl now then (true, remove_connection s1 c)
    else if alive c.id then
      (true, { s1 with available_connections := s1.available_connections ++ [c] })
    else (true, remove_connection s1 c)
  else (false, s)

/-- One cycle of `_cleanup_expired_connections`, executed atomically at
instant `now`: pop `qsize()` connections, put non-expired ones straight
back (preserving their relative order), collect the expired ones, then
`_remove_connection` each expired one (closing its socket; the registry
discard misses these once-released values).  Liveness is not probed. -/
def cleanup_cycle (cfg : PoolConfig) (now : Int) (s : PoolState) : PoolState :=
  let expired := s.available_connections.filter
    (fun c => is_expired c cfg.connection_ttl now)
  let kept := s.available_connections.filter
    (fun c => ¬ is_expired c cfg.connection_ttl now)
  expired.foldl remove_connection { s with available_connections := kept }

/-- `SimpleConnectionPool.shutdown`: sets `cleanup_running = False`, then
takes `all_connections_lock` and calls `_remove_connection` on each member
of `all_connections.copy()`.  `_remove_connection` re-acquires the same
non-reentrant `threading.Lock`, so with a non-empty registry the call
closes the first iterated socket and then blocks forever — it never
returns, never discards anything, and never reaches the remaining links.
`none` models the call that never returns; the lasting observable state of
a deadlocked call is `shutdown_stuck`.  With an empty registry the loop
body never runs and the call returns. -/
def shutdown (s : PoolState) : Option PoolState :=
  if s.all_connections = ∅ then some { s with cleanup_running := false }
  else none

/-- The lasting observable state of a deadlocked `shutdown` call: the
reaper flag is cleared and the first link of the set iteration (`conn`,
any member of the registry copy — Python set order is unspecified) has had
its socket closed; no collection has lost a member and the call never
proceeds further. -/
def shutdown_stuck (s : PoolState) (conn : PooledConnection) : PoolState :=
  { s with cleanup_running := false, closed := conn.id :: s.closed }

/-- The pool state right after `SimpleConnectionPool.__init__`. -/
def initialState : PoolState :=
  { available_connections := []
    all_connections := ∅
    borrowed_connections := ∅
    nextId := 0
    cleanup_running := true
    closed := [] }

/-- One atomic pool operation, with its environment oracles.  `acquire` is
a `get_connection` call whose blocking phase times out or is skipped
(sequentially, the queue it just drained is empty, so nothing can arrive
within the same atomic step); `acquireBlocked` is the wake-up of a
`get_connection` call already parked in its blocking phase, popping the
connection a concurrent release has pushed; `release` is
`return_connection` on an arbitrary caller-supplied value (the raise path
leaves the state unchanged); `reap` is one cleanup cycle, enabled while
`cleanup_running`; `doShutdown` is a `shutdown` call that returns (empty
registry) and `doShutdownStuck` the lasting state of one that deadlocks
after closing one socket. -/
inductive Step (cfg : PoolConfig) : PoolState → PoolState → Prop
  | acquire (now timeout : Int) (alive : Nat → Bool) (connect_ok : Bool)
      (s : PoolState) :
      Step cfg s (get_connection cfg now timeout alive connect_ok none s).2
  | acquireBlocked (now timeout : Int) (alive : Nat → Bool)
      (c : PooledConnection) (rest : List PooledConnection) (s : PoolState)
      (h : s.available_connections = c :: rest) :
      Step cfg s
        (blocking_phase cfg now timeout alive (some c)
          { s with available_connections := rest }).2
  | release (now : Int) (alive : Nat → Bool) (conn : PooledConnection)
      (s : PoolState) :
      Step cfg s (return_connection cfg now alive conn s).2
  | reap (now : Int) (s : PoolState) (h : s.cleanup_running = true) :
      Step cfg s (cleanup_cycle cfg now s)
  | doShutdown (s s' : PoolState) (h : shutdown s = some s') : Step cfg s s'
  | doShutdownStuck (s : PoolState) (conn : PooledConnection)
      (h : conn ∈ s.all_connections) :
      Step cfg s (shutdown_stuck s conn)

/-- States reachable from the freshly initialised pool by any sequence of
atomic pool operations (acquire / blocked acquire / release / reap /
shutdown, completed or deadlocked). -/
inductive Reachable (cfg : PoolConfig) : PoolState → Prop
  | init : Reachable cfg initialState
  | step {s s' : PoolState} :
      Reachable cfg s → Step cfg s s' → Reachable cfg s'

/-! ### Invariants -/

/-- Invariant of the pool, preserved by every operation (deadlocked
shutdowns included): the registry respects the capacity bound; the idle
queue holds pairwise distinct connections, all idle (`in_use = false`) and
none sharing an id with any borrowed entry; borrowed entries are unique
per id; registry entries are creation snapshots (`in_use = true`); every
recorded id is below the fresh-identity counter; and every queued or
borrowed connection's id has a registry entry. -/
structure Inv (cfg : PoolConfig) (s : PoolState) : Prop where
  cap_le : s.all_connections.card ≤ cfg.max_connections
  queue_nodup : (s.available_connections.map PooledConnection.id).Nodup
  queue_disj : ∀ c ∈ s.available_connections,
    ∀ b ∈ s.borrowed_connections, b.id ≠ c.id
  borrowed_inj : ∀ b ∈ s.borrowed_connections,
    ∀ b2 ∈ s.borrowed_connections, b.id = b2.id → b = b2
  all_lt : ∀ e ∈ s.all_connections, e.id < s.nextId
  borrowed_lt : ∀ b ∈ s.borrowed_connections, b.id < s.nextId
  queue_lt : ∀ c ∈ s.available_connections, c.id < s.nextId
  queue_idle : ∀ c ∈ s.available_connections, c.in_use = false
  all_in_use : ∀ e ∈ s.all_connections, e.in_use = true
  queue_sub : ∀ c ∈ s.available_connections,
    c.id ∈ s.all_connections.image PooledConnection.id
  borrowed_sub : ∀ b ∈ s.borrowed_connections,
    b.id ∈ s.all_connections.image PooledConnection.id

theorem inv_initial (cfg : PoolConfig) : Inv cfg initialState := by
  constructor <;> simp [initialState]

/-- An idle-valued connection can never equal a registry entry: registry
entries are creation snapshots with `in_use = true`. -/
theorem not_mem_all_of_idle {s : PoolState} {c : PooledConnection}
    (hall : ∀ e ∈ s.all_connections, e.in_use = true)
    (hc : c.in_use = false) : c ∉ s.all_connections := by
  intro h
  rw [hall c h] at hc
  cases hc

/-- When the discarded value is not a registry entry (the stale-hash miss),
`_remove_connection` only closes the socket. -/
theorem remove_connection_not_mem {s : PoolState} {c : PooledConnection}
    (h : c ∉ s.all_connections) :
    remove_connection s c = { s with closed := c.id :: s.closed } := by
  rw [remove_connection, Finset.erase_eq_of_not_mem h]

/-- Inserting an entry whose id is fresh for a per-id-unique borrowed set
keeps the set per-id unique. -/
theorem borrowed_inj_insert {t : Finset PooledConnection} {c : PooledConnection}
    (hinj : ∀ b ∈ t, ∀ b2 ∈ t, b.id = b2.id → b = b2)
    (hfresh : ∀ b ∈ t, b.id ≠ c.id) :
    ∀ b ∈ insert c t, ∀ b2 ∈ insert c t, b.id = b2.id → b = b2 := by
  intro b hb b2 hb2 hid
  rcases Finset.mem_insert.mp hb with h1 | h1
  · rcases Finset.mem_insert.mp hb2 with h2 | h2
    · rw [h1, h2]
    · rw [h1] at hid
      exact absurd hid.symm (hfresh b2 h2)
  · rcases Finset.mem_insert.mp hb2 with h2 | h2
    · rw [h2] at hid
      exact absurd hid (hfresh b h1)
    · exact hinj b h1 b2 h2 hid

/-- The hypotheses under which the idle-drain loop keeps the invariant:
base-state facts plus facts about the remaining queue contents `l`. -/
structure DrainInv (cfg : PoolConfig) (s : PoolState)
    (l : List PooledConnection) : Prop where
  cap_le : s.all_connections.card ≤ cfg.max_connections
  all_lt : ∀ e ∈ s.all_connections, e.id < s.nextId
  borrowed_lt : ∀ b ∈ s.borrowed_connections, b.id < s.nextId
  borrowed_inj : ∀ b ∈ s.borrowed_connections,
    ∀ b2 ∈ s.borrowed_connections, b.id = b2.id → b = b2
  all_in_use : ∀ e ∈ s.all_connections, e.in_use = true
  borrowed_sub : ∀ b ∈ s.borrowed_connections,
    b.id ∈ s.all_connections.image PooledConnection.id
  list_nodup : (l.map PooledConnection.id).Nodup
  list_disj : ∀ c ∈ l, ∀ b ∈ s.borrowed_connections, b.id ≠ c.id
  list_lt : ∀ c ∈ l, c.id < s.nextId
  list_idle : ∀ c ∈ l, c.in_use = false
  list_sub : ∀ c ∈ l, c.id ∈ s.all_connections.image PooledConnection.id

theorem inv_drainInv {cfg : PoolConfig} {s : PoolState} (h : Inv cfg s) :
    DrainInv cfg s s.available_connections :=
  ⟨h.cap_le, h.all_lt, h.borrowed_lt, h.borrowed_inj, h.all_in_use,
   h.borrowed_sub, h.queue_nodup, h.queue_disj, h.queue_lt, h.queue_idle,
   h.queue_sub⟩

theorem drain_loop_inv (cfg : PoolConfig) (now : Int) (alive : Nat → Bool)
    (l : List PooledConnection) :
    ∀ (s : PoolState), DrainInv cfg s l →
      Inv cfg (drain_loop cfg now alive l s).2 := by
  induction l with
  | nil =>
      intro s h
      exact ⟨h.cap_le, by simp [drain_loop], by simp [drain_loop],
             h.borrowed_inj, h.all_lt, h.borrowed_lt, by simp [drain_loop],
             by simp [drain_loop], h.all_in_use, by simp [drain_loop],
             h.borrowed_sub⟩
  | cons conn rest ih =>
      intro s h
      have hnodup := h.list_nodup
      simp only [List.map_cons, List.nodup_cons, List.mem_map] at hnodup
      have hmiss : conn ∉
          ({ s with available_connections := rest } :
            PoolState).all_connections :=
        not_mem_all_of_idle h.all_in_use (h.list_idle conn (by simp))
      have hrem :
          remove_connection { s with available_connections := rest } conn =
            { s with available_connections := rest,
                     closed := conn.id :: s.closed } := by
        rw [remove_connection_not_mem hmiss]
      have hnext :
          Inv cfg (drain_loop cfg now alive rest
            (remove_connection { s with available_connections := rest }
              conn)).2 := by
        rw [hrem]
        apply ih
        exact ⟨h.cap_le, h.all_lt, h.borrowed_lt, h.borrowed_inj,
               h.all_in_use, h.borrowed_sub, hnodup.2,
               fun c hc => h.list_disj c (by simp [hc]),
               fun c hc => h.list_lt c (by simp [hc]),
               fun c hc => h.list_idle c (by simp [hc]),
               fun c hc => h.list_sub c (by simp [hc])⟩
      by_cases hexp : is_expired conn cfg.connection_ttl now
      · rw [drain_loop, if_pos hexp]; exact hnext
      · by_cases hal : alive conn.id
        · rw [drain_loop, if_neg hexp, if_pos hal]
          refine ⟨h.cap_le, hnodup.2, ?_, ?_, h.all_lt, ?_, ?_, ?_,
                  h.all_in_use, ?_, ?_⟩
          · intro c hc b hb
            rcases Finset.mem_insert.mp hb with hb | hb
            · subst hb
              intro hcc
              exact hnodup.1 ⟨c, hc, hcc.symm⟩
            · exact h.list_disj c (by simp [hc]) b hb
          · exact borrowed_inj_insert h.borrowed_inj
              (fun b hb => h.list_disj conn (by simp) b hb)
          · intro b hb
            rcases Finset.mem_insert.mp hb with hb | hb
            · subst hb; exact h.list_lt conn (by simp)
            · exact h.borrowed_lt b hb
          · exact fun c hc => h.list_lt c (by simp [hc])
          · exact fun c hc => h.list_idle c (by simp [hc])
          · exact fun c hc => h.list_sub c (by simp [hc])
          · intro b hb
            rcases Finset.mem_insert.mp hb with hb | hb
            · subst hb; exact h.list_sub conn (by simp)
            · exact h.borrowed_sub b hb
        · rw [drain_loop, if_neg hexp, if_neg hal]; exact hnext

theorem blocking_phase_inv {cfg : PoolConfig} {s : PoolState}
    (now timeout : Int) (alive : Nat → Bool) (arrival : Option PooledConnection)
    (h : Inv cfg s)
    (harr : ∀ c, arrival = some c →
      c.id < s.nextId ∧ c.in_use = false ∧
      c.id ∈ s.all_connections.image PooledConnection.id ∧
      (∀ b ∈ s.borrowed_connections, b.id ≠ c.id) ∧
      (∀ q ∈ s.available_connections, q.id ≠ c.id)) :
    Inv cfg (blocking_phase cfg now timeout alive arrival s).2 := by
  rw [blocking_phase.eq_def]
  by_cases ht : timeout ≤ 0
  · rw [if_pos ht]; exact h
  · rw [if_neg ht]
    match arrival, harr with
    | none, _ => exact h
    | some conn, harr =>
        have hc := harr conn rfl
        have hmiss : conn ∉ s.all_connections :=
          not_mem_all_of_idle h.all_in_use hc.2.1
        have hrem : Inv cfg (remove_connection s conn) := by
          rw [remove_connection_not_mem hmiss]
          exact ⟨h.cap_le, h.queue_nodup, h.queue_disj, h.borrowed_inj,
                 h.all_lt, h.borrowed_lt, h.queue_lt, h.queue_idle,
                 h.all_in_use, h.queue_sub, h.borrowed_sub⟩
        dsimp only
        by_cases hexp : is_expired conn cfg.connection_ttl now
        · rw [if_pos hexp]; exact hrem
        · by_cases hal : alive conn.id
          · rw [if_neg hexp, if_pos hal]
            dsimp only
            refine ⟨h.cap_le, h.queue_nodup, ?_, ?_, h.all_lt, ?_,
                    h.queue_lt, h.queue_idle, h.all_in_use, h.queue_sub, ?_⟩
            · intro c hcq b hb
              rcases Finset.mem_insert.mp hb with hb | hb
              · subst hb; exact (hc.2.2.2.2 c hcq).symm
              · exact h.queue_disj c hcq b hb
            · exact borrowed_inj_insert h.borrowed_inj hc.2.2.2.1
            · intro b hb
              rcases Finset.mem_insert.mp hb with hb | hb
              · subst hb; exact hc.1
              · exact h.borrowed_lt b hb
            · intro b hb
              rcases Finset.mem_insert.mp hb with hb | hb
              · subst hb; exact hc.2.2.1
              · exact h.borrowed_sub b hb
          · rw [if_neg hexp, if_neg hal]; exact hrem

theorem create_or_wait_inv {cfg : PoolConfig} {s : PoolState}
    (now timeout : Int) (alive : Nat → Bool) (connect_ok : Bool)
    (arrival : Option PooledConnection) (h : Inv cfg s)
    (harr : ∀ c, arrival = some c →
      c.id < s.nextId ∧ c.in_use = false ∧
      c.id ∈ s.all_connections.image PooledConnection.id ∧
      (∀ b ∈ s.borrowed_connections, b.id ≠ c.id) ∧
      (∀ q ∈ s.available_connections, q.id ≠ c.id)) :
    Inv cfg (create_or_wait cfg now timeout alive connect_ok arrival s).2 := by
  rw [create_or_wait]
  by_cases hcap : s.all_connections.card < cfg.max_connections
  · rw [if_pos hcap]
    by_cases hok : connect_ok
    · simp only [hok, if_true]
      refine ⟨?_, h.queue_nodup, ?_, ?_, ?_, ?_, ?_, h.queue_idle, ?_, ?_, ?_⟩
      · exact le_trans (Finset.card_insert_le _ _) hcap
      · intro c hcq b hb
        rcases Finset.mem_insert.mp hb with hb | hb
        · subst hb; exact Nat.ne_of_gt (h.queue_lt c hcq)
        · exact h.queue_disj c hcq b hb
      · exact borrowed_inj_insert h.borrowed_inj
          (fun b hb => Nat.ne_of_lt (h.borrowed_lt b hb))
      · intro e he
        rcases Finset.mem_insert.mp he with he | he
        · subst he; exact Nat.lt_succ_self _
        · exact Nat.lt_succ_of_lt (h.all_lt e he)
      · intro b hb
        rcases Finset.mem_insert.mp hb with hb | hb
        · subst hb; exact Nat.lt_succ_self _
        · exact Nat.lt_succ_of_lt (h.borrowed_lt b hb)
      · exact fun c hc => Nat.lt_succ_of_lt (h.queue_lt c hc)
      · intro e he
        rcases Finset.mem_insert.mp he with he | he
        · subst he; rfl
        · exact h.all_in_use e he
      · intro c hc
        rw [Finset.image_insert]
        exact Finset.mem_insert_of_mem (h.queue_sub c hc)
      · intro b hb
        rw [Finset.image_insert]
        rcases Finset.mem_insert.mp hb with hb | hb
        · subst hb; exact Finset.mem_insert_self _ _
        · exact Finset.mem_insert_of_mem (h.borrowed_sub b hb)
    · simp only [hok, if_false, Bool.false_eq_true]
      exact blocking_phase_inv now timeout alive arrival h harr
  · rw [if_neg hcap]
    exact blocking_phase_inv now timeout alive arrival h harr

theorem get_connection_inv {cfg : PoolConfig} {s : PoolState}
    (now timeout : Int) (alive : Nat → Bool) (connect_ok : Bool)
    (h : Inv cfg s) :
    Inv cfg (get_connection cfg now timeout alive connect_ok none s).2 := by
  rw [get_connection]
  by_cases ht : 0 < timeout
  · rw [if_pos ht]
    have hd : Inv cfg (drain_loop cfg now alive s.available_connections s).2 :=
      drain_loop_inv cfg now alive s.available_connections s (inv_drainInv h)
    rcases hdr : drain_loop cfg now alive s.available_connections s with ⟨r, s1⟩
    rw [hdr] at hd
    match r with
    | some conn => exact hd
    | none =>
        exact create_or_wait_inv now timeout alive connect_ok none hd
          (by intro c hc; cases hc)
  · rw [if_neg ht]
    exact create_or_wait_inv now timeout alive connect_ok none h
      (by intro c hc; cases hc)

theorem return_connection_inv {cfg : PoolConfig} {s : PoolState}
    (now : Int) (alive : Nat → Bool) (conn : PooledConnection)
    (h : Inv cfg s) :
    Inv cfg (return_connection cfg now alive conn s).2 := by
  rw [return_connection]
  by_cases hmem : conn ∈ s.borrowed_connections
  · rw [if_pos hmem]
    have h1 : Inv cfg
        { s with borrowed_connections :=
            s.borrowed_connections.erase conn } := by
      refine ⟨h.cap_le, h.queue_nodup, ?_, ?_, h.all_lt, ?_, h.queue_lt,
              h.queue_idle, h.all_in_use, h.queue_sub, ?_⟩
      · exact fun c hc b hb =>
          h.queue_disj c hc b (Finset.mem_of_mem_erase hb)
      · exact fun b hb b2 hb2 =>
          h.borrowed_inj b (Finset.mem_of_mem_erase hb) b2
            (Finset.mem_of_mem_erase hb2)
      · exact fun b hb => h.borrowed_lt b (Finset.mem_of_mem_erase hb)
      · exact fun b hb => h.borrowed_sub b (Finset.mem_of_mem_erase hb)
    have hmiss :
        ({ conn with in_use := false, last_used := now } :
          PooledConnection) ∉
          ({ s with borrowed_connections :=
              s.borrowed_connections.erase conn } :
            PoolState).all_connections :=
      not_mem_all_of_idle h1.all_in_use rfl
    by_cases hexp : is_expired { conn with in_use := false, last_used := now }
        cfg.connection_ttl now
    · simp only [hexp, if_true]
      rw [remove_connection_not_mem hmiss]
      exact ⟨h1.cap_le, h1.queue_nodup, h1.queue_disj, h1.borrowed_inj,
             h1.all_lt, h1.borrowed_lt, h1.queue_lt, h1.queue_idle,
             h1.all_in_use, h1.queue_sub, h1.borrowed_sub⟩
    · by_cases hal : alive conn.id
      · simp only [hexp, hal, if_false, if_true, Bool.false_eq_true]
        refine ⟨h.cap_le, ?_, ?_, h1.borrowed_inj, h.all_lt, h1.borrowed_lt,
                ?_, ?_, h.all_in_use, ?_, h1.borrowed_sub⟩
        · simp only [List.map_append, List.map_cons, List.map_nil]
          rw [List.nodup_append]
          refine ⟨h.queue_nodup, List.nodup_singleton _, ?_⟩
          intro a ha hb
          simp only [List.mem_singleton] at hb
          rcases List.mem_map.mp ha with ⟨q, hq, hqa⟩
          exact h.queue_disj q hq conn hmem (hqa.trans hb).symm
        · intro c hc b hb
          rcases List.mem_append.mp hc with hc | hc
          · exact h.queue_disj c hc b (Finset.mem_of_mem_erase hb)
          · simp only [List.mem_singleton] at hc
            subst hc
            intro hid
            have hb2 := Finset.mem_erase.mp hb
            exact hb2.1 (h.borrowed_inj b hb2.2 conn hmem hid)
        · intro c hc
          rcases List.mem_append.mp hc with hc | hc
          · exact h.queue_lt c hc
          · simp only [List.mem_singleton] at hc
            subst hc
            exact h.borrowed_lt conn hmem
        · intro c hc
          rcases List.mem_append.mp hc with hc | hc
          · exact h.queue_idle c hc
          · simp only [List.mem_singleton] at hc
            subst hc
            rfl
        · intro c hc
          rcases List.mem_append.mp hc with hc | hc
          · exact h.queue_sub c hc
          · simp only [List.mem_singleton] at hc
            subst hc
            exact h.borrowed_sub conn hmem
      · simp only [hexp, hal, if_false, Bool.false_eq_true]
        rw [remove_connection_not_mem hmiss]
        exact ⟨h1.cap_le, h1.queue_nodup, h1.queue_disj, h1.borrowed_inj,
               h1.all_lt, h1.borrowed_lt, h1.queue_lt, h1.queue_idle,
               h1.all_in_use, h1.queue_sub, h1.borrowed_sub⟩
  · rw [if_neg hmem]
    exact h

/-- Folding `_remove_connection` over values that are not registry entries
only closes their sockets: every discard misses. -/
theorem foldl_remove_not_mem (l : List PooledConnection) :
    ∀ s : PoolState, (∀ p ∈ l, p ∉ s.all_connections) →
      l.foldl remove_connection s =
        { s with closed := (l.map PooledConnection.id).reverse ++ s.closed } := by
  induction l with
  | nil =>
      intro s _
      simp
  | cons p l ih =>
      intro s h
      rw [List.foldl_cons, remove_connection_not_mem (h p (by simp))]
      rw [ih { s with closed := p.id :: s.closed }
            (fun q hq => h q (by simp [hq]))]
      simp

/-- Restricting the idle queue to a sublist keeps the invariant. -/
theorem inv_filter_queue {cfg : PoolConfig} {s : PoolState}
    (h : Inv cfg s) (p : PooledConnection → Bool) :
    Inv cfg
      { s with available_connections := s.available_connections.filter p } := by
  refine ⟨h.cap_le, ?_, ?_, h.borrowed_inj, h.all_lt, h.borrowed_lt,
          ?_, ?_, h.all_in_use, ?_, h.borrowed_sub⟩
  · refine List.Nodup.sublist ?_ h.queue_nodup
    exact List.Sublist.map _ (List.filter_sublist _)
  · exact fun c hc => h.queue_disj c (List.mem_of_mem_filter hc)
  · exact fun c hc => h.queue_lt c (List.mem_of_mem_filter hc)
  · exact fun c hc => h.queue_idle c (List.mem_of_mem_filter hc)
  · exact fun c hc => h.queue_sub c (List.mem_of_mem_filter hc)

theorem foldl_remove_inv (l : List PooledConnection) {cfg : PoolConfig} :
    ∀ t : PoolState, Inv cfg t → (∀ p ∈ l, p ∉ t.all_connections) →
      Inv cfg (l.foldl remove_connection t) := by
  induction l with
  | nil =>
      intro t ht _
      exact ht
  | cons p l ih =>
      intro t ht h
      rw [List.foldl_cons, remove_connection_not_mem (h p (by simp))]
      apply ih
      · exact ⟨ht.cap_le, ht.queue_nodup, ht.queue_disj, ht.borrowed_inj,
               ht.all_lt, ht.borrowed_lt, ht.queue_lt, ht.queue_idle,
               ht.all_in_use, ht.queue_sub, ht.borrowed_sub⟩
      · exact fun q hq => h q (by simp [hq])

theorem cleanup_cycle_inv {cfg : PoolConfig} {s : PoolState} (now : Int)
    (h : Inv cfg s) : Inv cfg (cleanup_cycle cfg now s) := by
  rw [cleanup_cycle]
  apply foldl_remove_inv
  · exact inv_filter_queue h _
  · intro p hp
    exact not_mem_all_of_idle h.all_in_use
      (h.queue_idle p (List.mem_of_mem_filter hp))

/-- A `shutdown` call returns only on an empty registry, and then only
clears the reaper flag. -/
theorem shutdown_eq_some {s s' : PoolState} (h : shutdown s = some s') :
    s.all_connections = ∅ ∧ s' = { s with cleanup_running := false } := by
  rw [shutdown] at h
  by_cases he : s.all_connections = ∅
  · rw [if_pos he] at h
    exact ⟨he, (Option.some.inj h).symm⟩
  · rw [if_neg he] at h
    cases h

/-- With a non-empty registry a `shutdown` call never returns: it blocks
re-acquiring `all_connections_lock` inside `_remove_connection`. -/
theorem shutdown_none_of_nonempty {s : PoolState} {conn : PooledConnection}
    (h : conn ∈ s.all_connections) : shutdown s = none := by
  rw [shutdown, if_neg]
  intro he
  rw [he] at h
  exact absurd h (Finset.not_mem_empty conn)

theorem step_inv {cfg : PoolConfig} {s s' : PoolState}
    (h : Inv cfg s) (hs : Step cfg s s') : Inv cfg s' := by
  cases hs with
  | acquire now timeout alive connect_ok s =>
      exact get_connection_inv now timeout alive connect_ok h
  | acquireBlocked now timeout alive c rest s hq =>
      have hnodup := h.queue_nodup
      rw [hq] at hnodup
      simp only [List.map_cons, List.nodup_cons, List.mem_map] at hnodup
      apply blocking_phase_inv
      · refine ⟨h.cap_le, hnodup.2, ?_, h.borrowed_inj, h.all_lt,
                h.borrowed_lt, ?_, ?_, h.all_in_use, ?_, h.borrowed_sub⟩
        · intro q hq2 b hb
          exact h.queue_disj q (by rw [hq]; exact List.mem_cons_of_mem _ hq2)
            b hb
        · intro q hq2
          exact h.queue_lt q (by rw [hq]; exact List.mem_cons_of_mem _ hq2)
        · intro q hq2
          exact h.queue_idle q (by rw [hq]; exact List.mem_cons_of_mem _ hq2)
        · intro q hq2
          exact h.queue_sub q (by rw [hq]; exact List.mem_cons_of_mem _ hq2)
      · rintro c' hc'
        injection hc' with hc'
        subst hc'
        refine ⟨h.queue_lt c (by rw [hq]; exact List.mem_cons_self _ _),
                h.queue_idle c (by rw [hq]; exact List.mem_cons_self _ _),
                h.queue_sub c (by rw [hq]; exact List.mem_cons_self _ _),
                ?_, ?_⟩
        · intro b hb
          exact h.queue_disj c (by rw [hq]; exact List.mem_cons_self _ _) b hb
        · intro q hq2 hq3
          exact hnodup.1 ⟨q, hq2, hq3⟩
  | release now alive conn s =>
      exact return_connection_inv now alive conn h
  | reap now s hrun => exact cleanup_cycle_inv now h
  | doShutdown s s' hsd =>
      rcases shutdown_eq_some hsd with ⟨hall, rfl⟩
      exact ⟨h.cap_le, h.queue_nodup, h.queue_disj, h.borrowed_inj, h.all_lt,
             h.borrowed_lt, h.queue_lt, h.queue_idle, h.all_in_use,
             h.queue_sub, h.borrowed_sub⟩
  | doShutdownStuck s conn hm =>
      exact ⟨h.cap_le, h.queue_nodup, h.queue_disj, h.borrowed_inj, h.all_lt,
             h.borrowed_lt, h.queue_lt, h.queue_idle, h.all_in_use,
             h.queue_sub, h.borrowed_sub⟩

theorem reachable_inv {cfg : PoolConfig} {s : PoolState}
    (h : Reachable cfg s) : Inv cfg s := by
  induction h with
  | init => exact inv_initial cfg
  | step hr hs ih => exact step_inv ih hs

/-! ### Example traces shared by the concrete counterexamples and witnesses -/

def exCfg : PoolConfig := ⟨2, 10⟩
def exAlive : Nat → Bool := fun _ => true
def exS1 : PoolState := (get_connection exCfg 0 5 exAlive true none initialState).2
def exS2 : PoolState := (return_connection exCfg 1 exAlive ⟨0, 0, 0, true⟩ exS1).2
def exT3 : PoolState :=
  (return_connection exCfg 1 exAlive ⟨0, 0, 0, true⟩
    (get_connection exCfg 0 5 exAlive true none exS1).2).2
def exT20 : PoolState := (get_connection exCfg 20 5 exAlive true none exS2).2
def exB : PoolState :=
  (blocking_phase exCfg 2 1 exAlive (some ⟨0, 0, 1, false⟩)
    { exS2 with available_connections := [] }).2

theorem exS1_reachable : Reachable exCfg exS1 :=
  Reachable.step Reachable.init (Step.acquire 0 5 exAlive true initialState)
theorem exS2_reachable : Reachable exCfg exS2 :=
  Reachable.step exS1_reachable (Step.release 1 exAlive ⟨0, 0, 0, true⟩ exS1)
theorem exT3_reachable : Reachable exCfg exT3 :=
  Reachable.step
    (Reachable.step exS1_reachable (Step.acquire 0 5 exAlive true exS1))
    (Step.release 1 exAlive ⟨0, 0, 0, true⟩
      (get_connection exCfg 0 5 exAlive true none exS1).2)
theorem exT20_reachable : Reachable exCfg exT20 :=
  Reachable.step exS2_reachable (Step.acquire 20 5 exAlive true exS2)
theorem exB_reachable : Reachable exCfg exB :=
  Reachable.step exS2_reachable
    (Step.acquireBlocked 2 1 exAlive ⟨0, 0, 1, false⟩ [] exS2 (by decide))
theorem exStuck_reachable : Reachable exCfg (shutdown_stuck exS1 ⟨0, 0, 0, true⟩) :=
  Reachable.step exS1_reachable
    (Step.doShutdownStuck exS1 ⟨0, 0, 0, true⟩ (by decide))

/-- C1: capacity invariant — in every state reachable by any sequence of
acquire / blocked-acquire / release / reaper-cycle / shutdown operations
(deadlocked shutdowns included), `len(all_connections)` is at most
`max_connections`: registry entries are only added at creation under the
`len(all_connections) < max_connections` check, and failed discards and
deadlocked shutdowns never grow the registry. -/
theorem capacity_invariant (cfg : PoolConfig) (s : PoolState)
    (h : Reachable cfg s) : s.all_connections.card ≤ cfg.max_connections :=
  (reachable_inv h).cap_le
theorem capacity_invariant_witness :
    exS1.all_connections.card ≤ exCfg.max_connections :=
  capacity_invariant exCfg exS1 exS1_reachable

/-- C2: exclusivity invariant — in every reachable state the idle queue
and `borrowed_connections` are disjoint as sets of links: no connection in
the queue shares its identity with any borrowed entry (stale borrowed
entries included).  A link enters the queue only through a successful
release, which first removes the matching borrowed entry, and a link with
a stale borrowed entry can never be released back into the queue. -/
theorem exclusivity_invariant (cfg : PoolConfig) (s : PoolState)
    (h : Reachable cfg s) :
    ∀ c ∈ s.available_connections, ∀ b ∈ s.borrowed_connections, b.id ≠ c.id :=
  (reachable_inv h).queue_disj
theorem exclusivity_invariant_witness :
    (⟨0, 0, 1, false⟩ : PooledConnection) ∈ exT3.available_connections ∧
    (⟨1, 0, 0, true⟩ : PooledConnection) ∈ exT3.borrowed_connections ∧
    (⟨1, 0, 0, true⟩ : PooledConnection).id ≠
      (⟨0, 0, 1, false⟩ : PooledConnection).id :=
  ⟨by decide, by decide,
   exclusivity_invariant exCfg exT3 exT3_reachable ⟨0, 0, 1, false⟩ (by decide)
     ⟨1, 0, 0, true⟩ (by decide)⟩

/-- C6 counterexample: the claim fails on the code.  Reaching `shutdown`
with link 0 still borrowed, the deadlocked call's lasting observable state
has closed link 0's socket (forced destruction begun) yet link 0 is still
a member of `all_connections` *and* of `borrowed_connections`: shutdown's
destruction removes it from neither, contradicting the claim that every
destroying path removes the link from `allLinks` and from whichever of
idle/borrowedLinks contained it. -/
theorem shutdown_destroy_not_deregistered :
    Reachable exCfg (shutdown_stuck exS1 ⟨0, 0, 0, true⟩) ∧
    0 ∈ (shutdown_stuck exS1 ⟨0, 0, 0, true⟩).closed ∧
    ⟨0, 0, 0, true⟩ ∈ (shutdown_stuck exS1 ⟨0, 0, 0, true⟩).all_connections ∧
    ⟨0, 0, 0, true⟩ ∈ (shutdown_stuck exS1 ⟨0, 0, 0, true⟩).borrowed_connections :=
  ⟨exStuck_reachable, by decide, by decide, by decide⟩

/-- C6 amended: containment invariant — at every reachable instant
(deadlocked shutdowns included) every link in the idle queue and every
borrowed entry has a registry entry with its identity in
`all_connections`.  This holds because no destruction path ever removes a
registry entry: the drain / blocking / release / reaper discards miss (the
value-hash of a once-released link is stale) and a shutdown with a
non-empty registry deadlocks before discarding anything, so
`all_connections` retains every link ever created. -/
theorem containment_invariant (cfg : PoolConfig) (s : PoolState)
    (h : Reachable cfg s) :
    (∀ c ∈ s.available_connections,
      c.id ∈ s.all_connections.image PooledConnection.id) ∧
    (∀ b ∈ s.borrowed_connections,
      b.id ∈ s.all_connections.image PooledConnection.id) :=
  ⟨(reachable_inv h).queue_sub, (reachable_inv h).borrowed_sub⟩
theorem containment_invariant_witness :
    (⟨0, 0, 1, false⟩ : PooledConnection) ∈ exB.borrowed_connections ∧
    (⟨0, 0, 1, false⟩ : PooledConnection).id ∈
      exB.all_connections.image PooledConnection.id :=
  ⟨by decide,
   (containment_invariant exCfg exB exB_reachable).2 ⟨0, 0, 1, false⟩
     (by decide)⟩

/-- C7: the code deadlocks instead of shutting down.  `shutdown` holds
the non-reentrant `all_connections_lock` while `_remove_connection`
re-acquires it, so at the failing input `exS1` (a pool with one tracked
link) the call never returns (`shutdown exS1 = none`); its lasting
observable state has closed at most the first socket and removed nothing
from `all_connections`.  Only with an already-empty registry does
`shutdown` return, clearing the reaper flag. -/
theorem shutdown_deadlocks_on_nonempty :
    (⟨0, 0, 0, true⟩ : PooledConnection) ∈ exS1.all_connections ∧
    shutdown exS1 = none ∧
    (shutdown_stuck exS1 ⟨0, 0, 0, true⟩).all_connections =
      exS1.all_connections ∧
    (shutdown_stuck exS1 ⟨0, 0, 0, true⟩).closed = [0] ∧
    shutdown initialState =
      some { initialState with cleanup_running := false } :=
  ⟨by decide, by decide, by decide, by decide, by decide⟩

/-- C4 counterexample: the claim fails on the code — a link that *is*
currently borrowed can fail to release.  In the reachable state `exB`, a
blocked acquire has borrowed link 0 (its entry `⟨0,0,1,false⟩`, recorded
before the `in_use`/`last_used` refresh, is in `borrowed_connections`),
yet `return_connection` of the link's current values `⟨0,0,2,true⟩`
raises `ValueError`: the value-hash membership test misses the stale
entry.  The state is left unchanged. -/
theorem release_blocked_link_raises :
    Reachable exCfg exB ∧
    (⟨0, 0, 1, false⟩ : PooledConnection) ∈ exB.borrowed_connections ∧
    (return_connection exCfg 3 exAlive ⟨0, 0, 2, true⟩ exB).1 = false ∧
    (return_connection exCfg 3 exAlive ⟨0, 0, 2, true⟩ exB).2 = exB :=
  ⟨exB_reachable, by decide, by decide, by decide⟩

/-- C4 amended: release misuse — `return_connection` raises
`ValueError` (result flag `false`) exactly when no `borrowed_connections`
entry equals the connection's *current field values* (the dataclass
value-hash membership); links borrowed through the idle-drain or creation
paths, whose entries were recorded after the final field updates, release
successfully, while a link borrowed through the blocking phase always
raises.  The raise always surfaces and leaves the pool state completely
unchanged (it precedes every mutation). -/
theorem release_misuse_value_iff (cfg : PoolConfig) (now : Int)
    (alive : Nat → Bool) (conn : PooledConnection) (s : PoolState) :
    ((return_connection cfg now alive conn s).1 = false ↔
      conn ∉ s.borrowed_connections) ∧
    ((return_connection cfg now alive conn s).1 = false →
      (return_connection cfg now alive conn s).2 = s) := by
  rw [return_connection]
  by_cases hmem : conn ∈ s.borrowed_connections
  · rw [if_pos hmem]
    refine ⟨?_, ?_⟩ <;> dsimp only <;> split_ifs <;> simp [hmem]
  · rw [if_neg hmem]
    exact ⟨by simp [hmem], fun _ => rfl⟩
theorem release_misuse_value_iff_witness :
    ((return_connection exCfg 2 exAlive ⟨7, 0, 0, true⟩ exS2).1 = false ↔
      (⟨7, 0, 0, true⟩ : PooledConnection) ∉ exS2.borrowed_connections) ∧
    ((return_connection exCfg 2 exAlive ⟨7, 0, 0, true⟩ exS2).1 = false →
      (return_connection exCfg 2 exAlive ⟨7, 0, 0, true⟩ exS2).2 = exS2) :=
  release_misuse_value_iff exCfg 2 exAlive ⟨7, 0, 0, true⟩ exS2

/-- C10: a successful release never takes the destroy-for-expiry branch —
`return_connection` sets `last_used = now` immediately before its expiry
check, so with a positive ttl the check `now - last_used > ttl` is
`0 > ttl` and always fails.  A successfully released link that passes the
liveness probe is always pushed back onto the idle queue, with no socket
closed and `all_connections` untouched; only a failed probe diverts it to
the destroy path (socket closed; and since the released values are no
longer a registry entry, the discard there leaves `all_connections`
unchanged too). -/
theorem release_never_expires (cfg : PoolConfig) (now : Int)
    (alive : Nat → Bool) (conn : PooledConnection) (s : PoolState)
    (httl : 0 < cfg.connection_ttl)
    (hmem : conn ∈ s.borrowed_connections) :
    (return_connection cfg now alive conn s).1 = true ∧
    (alive conn.id = true →
      (return_connection cfg now alive conn s).2.available_connections =
        s.available_connections ++
          [{ conn with in_use := false, last_used := now }] ∧
      (return_connection cfg now alive conn s).2.all_connections =
        s.all_connections ∧
      (return_connection cfg now alive conn s).2.closed = s.closed) ∧
    (alive conn.id = false →
      (return_connection cfg now alive conn s).2 =
        remove_connection
          { s with borrowed_connections := s.borrowed_connections.erase conn }
          { conn with in_use := false, last_used := now }) ∧
    (alive conn.id = false →
      ({ conn with in_use := false, last_used := now } : PooledConnection) ∉
        s.all_connections →
      (return_connection cfg now alive conn s).2.all_connections =
        s.all_connections) := by
  have hexp : is_expired { conn with in_use := false, last_used := now }
      cfg.connection_ttl now = false := by
    simp only [is_expired, decide_eq_false_iff_not, not_lt]
    omega
  rw [return_connection, if_pos hmem]
  simp only [hexp, Bool.false_eq_true, if_false]
  by_cases hal : alive conn.id
  · simp [hal]
  · refine ⟨?_, ?_, ?_, ?_⟩
    · simp [hal]
    · intro hcontra
      exact absurd hcontra hal
    · intro _
      simp [hal]
    · intro _ hnm
      simp [hal, remove_connection, Finset.erase_eq_of_not_mem hnm]
theorem release_never_expires_witness :
    (return_connection exCfg 1 exAlive ⟨0, 0, 0, true⟩ exS1).1 = true ∧
    (return_connection exCfg 1 exAlive ⟨0, 0, 0, true⟩ exS1).2.available_connections =
      exS1.available_connections ++ [⟨0, 0, 1, false⟩] := by
  have h := release_never_expires exCfg 1 exAlive ⟨0, 0, 0, true⟩ exS1
    (by decide) (by decide)
  exact ⟨h.1, ((h.2.1 (by decide)).1).trans rfl⟩
/-- C3 counterexample: the claim fails on the code — an expired popped
link is not destroyed in the spec's sense.  After acquire at 0, release at
1 and acquire at 20 (ttl 10), the drain pops the expired link 0 and closes
its socket (`0 ∈ closed`), but `all_connections.discard` computes the
dataclass value-hash of the mutated link and misses the creation snapshot,
so link 0's registry entry is still in `all_connections`. -/
theorem drain_expired_not_deregistered :
    Reachable exCfg exT20 ∧
    0 ∈ exT20.closed ∧
    ⟨0, 0, 0, true⟩ ∈ exT20.all_connections :=
  ⟨exT20_reachable, by decide, by decide⟩

/-- How the idle-drain loop behaves on a queue whose first usable entry is
`c` when, as in every reachable state, the unusable values in front are no
longer registry entries (their snapshots are stale): each is closed and
dropped but stays registered, and `c` is borrowed with `last_used`
refreshed. -/
theorem drain_loop_spec (cfg : PoolConfig) (now : Int) (alive : Nat → Bool)
    (pre : List PooledConnection) :
    ∀ (c : PooledConnection) (rest : List PooledConnection) (s : PoolState),
      (∀ p ∈ pre,
        is_expired p cfg.connection_ttl now = true ∨ alive p.id = false) →
      (∀ p ∈ pre, p ∉ s.all_connections) →
      is_expired c cfg.connection_ttl now = false →
      alive c.id = true →
      drain_loop cfg now alive (pre ++ c :: rest) s =
        (some { c with in_use := true, last_used := now },
         { s with
             available_connections := rest,
             borrowed_connections :=
               insert { c with in_use := true, last_used := now }
                 s.borrowed_connections,
             closed := (pre.map PooledConnection.id).reverse ++ s.closed }) := by
  induction pre with
  | nil =>
      intro c rest s hpre hmiss hexp hal
      rw [List.nil_append, drain_loop, if_neg (by rw [hexp]; simp), if_pos hal]
      simp
  | cons p pre ih =>
      intro c rest s hpre hmiss hexp hal
      have hstep :
          drain_loop cfg now alive ((p :: pre) ++ c :: rest) s =
          drain_loop cfg now alive (pre ++ c :: rest)
            { s with available_connections := pre ++ c :: rest,
                     closed := p.id :: s.closed } := by
        have hrm :
            remove_connection
              { s with available_connections := pre ++ c :: rest } p =
            { s with available_connections := pre ++ c :: rest,
                     closed := p.id :: s.closed } :=
          remove_connection_not_mem (hmiss p (by simp))
        rcases hpre p (List.mem_cons_self _ _) with hp | hp
        · rw [List.cons_append, drain_loop, if_pos hp, hrm]
        · by_cases hpe : is_expired p cfg.connection_ttl now
          · rw [List.cons_append, drain_loop, if_pos hpe, hrm]
          · rw [List.cons_append, drain_loop, if_neg hpe,
                if_neg (by rw [hp]; simp), hrm]
      rw [hstep]
      rw [ih c rest
            { s with available_connections := pre ++ c :: rest,
                     closed := p.id :: s.closed }
            (fun q hq => hpre q (List.mem_cons_of_mem _ hq))
            (fun q hq => hmiss q (List.mem_cons_of_mem _ hq)) hexp hal]
      simp [List.reverse_cons, List.append_assoc]

/-- C3 amended: acquire, non-blocking phase — a `get_connection` call with
a positive time budget pops connections from the idle queue one by one;
every popped connection that is TTL-expired or fails the liveness probe
has its socket closed and the pop is retried, but its registry entry is
*not* removed from `all_connections` (the value-hashed discard misses the
once-released values, hypothesis `hmiss`, which holds in every reachable
state by `reachable_inv`); the first popped connection that is neither
expired nor dead is marked `in_use`, recorded in `borrowed_connections`
under its refreshed field values, has `last_used` refreshed to `now`, and
is returned. -/
theorem acquire_drain_spec (cfg : PoolConfig) (now timeout : Int)
    (alive : Nat → Bool) (connect_ok : Bool) (arrival : Option PooledConnection)
    (s : PoolState) (pre rest : List PooledConnection) (c : PooledConnection)
    (ht : 0 < timeout)
    (hav : s.available_connections = pre ++ c :: rest)
    (hpre : ∀ p ∈ pre,
      is_expired p cfg.connection_ttl now = true ∨ alive p.id = false)
    (hmiss : ∀ p ∈ pre, p ∉ s.all_connections)
    (hexp : is_expired c cfg.connection_ttl now = false)
    (hal : alive c.id = true) :
    get_connection cfg now timeout alive connect_ok arrival s =
      (some { c with in_use := true, last_used := now },
       { s with
           available_connections := rest,
           borrowed_connections :=
             insert { c with in_use := true, last_used := now }
               s.borrowed_connections,
           closed := (pre.map PooledConnection.id).reverse ++ s.closed }) := by
  rw [get_connection, if_pos ht, hav,
      drain_loop_spec cfg now alive pre c rest s hpre hmiss hexp hal]

def wS : PoolState :=
  { available_connections := [⟨0, 0, 0, false⟩, ⟨1, 0, 15, false⟩]
    all_connections := {⟨0, 0, 0, true⟩, ⟨1, 0, 0, true⟩}
    borrowed_connections := ∅
    nextId := 2
    cleanup_running := true
    closed := [] }

theorem acquire_drain_spec_witness :
    (get_connection ⟨3, 10⟩ 20 5 exAlive true none wS).1 =
      some ⟨1, 0, 20, true⟩ := by
  rw [acquire_drain_spec ⟨3, 10⟩ 20 5 exAlive true none wS
    [⟨0, 0, 0, false⟩] [] ⟨1, 0, 15, false⟩ (by decide) rfl
    (by intro p hp; left; simp at hp; rw [hp]; decide)
    (by intro p hp; simp at hp; rw [hp]; decide)
    (by decide) (by decide)]

def wB : PoolState :=
  { available_connections := []
    all_connections := {⟨0, 0, 0, true⟩}
    borrowed_connections := ∅
    nextId := 1
    cleanup_running := true
    closed := [] }

/-- C5 counterexample: the claim fails on the code — an expired link
arriving at the blocking wait is not destroyed in the spec's sense.  At a
capacity-1 pool already holding registry entry `⟨0,0,0,true⟩`, an arriving
once-released link `⟨0,0,1,false⟩` that is TTL-expired at time 20 is
closed and the call fails, but the value-hashed discard misses and the
link's registry entry remains in `all_connections`. -/
theorem blocking_expired_not_deregistered :
    (get_connection ⟨1, 10⟩ 20 5 exAlive true (some ⟨0, 0, 1, false⟩) wB).1 =
      none ∧
    0 ∈ (get_connection ⟨1, 10⟩ 20 5 exAlive true
      (some ⟨0, 0, 1, false⟩) wB).2.closed ∧
    ⟨0, 0, 0, true⟩ ∈ (get_connection ⟨1, 10⟩ 20 5 exAlive true
      (some ⟨0, 0, 1, false⟩) wB).2.all_connections :=
  ⟨by decide, by decide, by decide⟩

/-- C5 amended: acquire, blocking phase — when the idle queue is empty and
the pool is at capacity, a `get_connection` call with a positive budget
blocks on the queue: if nothing arrives it returns `None` (Exhausted); an
arriving connection is validated exactly once — expired → socket closed
and `None` with no further retry, the registry entry staying in
`all_connections` (the discard misses once-released values); alive →
recorded in `borrowed_connections` under its stale pre-refresh snapshot
and returned refreshed; dead → socket closed and `None`. -/
theorem acquire_blocking_spec (cfg : PoolConfig) (now timeout : Int)
    (alive : Nat → Bool) (connect_ok : Bool) (arrival : Option PooledConnection)
    (s : PoolState)
    (hav : s.available_connections = [])
    (hcap : cfg.max_connections ≤ s.all_connections.card)
    (ht : 0 < timeout) :
    (arrival = none →
      get_connection cfg now timeout alive connect_ok arrival s = (none, s)) ∧
    (∀ c, arrival = some c →
      ((is_expired c cfg.connection_ttl now = true →
        get_connection cfg now timeout alive connect_ok arrival s =
          (none, remove_connection s c)) ∧
       (is_expired c cfg.connection_ttl now = true → c ∉ s.all_connections →
        (get_connection cfg now timeout alive connect_ok arrival
          s).2.all_connections = s.all_connections) ∧
       (is_expired c cfg.connection_ttl now = false → alive c.id = true →
        get_connection cfg now timeout alive connect_ok arrival s =
          (some { c with in_use := true, last_used := now },
           { s with borrowed_connections := insert c s.borrowed_connections })) ∧
       (is_expired c cfg.connection_ttl now = false → alive c.id = false →
        get_connection cfg now timeout alive connect_ok arrival s =
          (none, remove_connection s c)))) := by
  have hs : ({ s with available_connections := ([] : List PooledConnection) } :
      PoolState) = s := by rw [← hav]
  have hmain : get_connection cfg now timeout alive connect_ok arrival s =
      blocking_phase cfg now timeout alive arrival s := by
    rw [get_connection, if_pos ht, hav, drain_loop, hs]
    show create_or_wait cfg now timeout alive connect_ok arrival s = _
    rw [create_or_wait, if_neg (not_lt.mpr hcap)]
  rw [hmain]
  have ht2 : ¬ timeout ≤ 0 := not_le.mpr ht
  constructor
  · rintro rfl
    rw [blocking_phase.eq_def, if_neg ht2]
  · rintro c rfl
    refine ⟨?_, ?_, ?_, ?_⟩
    · intro hexp
      rw [blocking_phase.eq_def, if_neg ht2]
      simp only [hexp, if_true]
    · intro hexp hnm
      rw [blocking_phase.eq_def, if_neg ht2]
      simp only [hexp, if_true]
      simp [remove_connection, Finset.erase_eq_of_not_mem hnm]
    · intro hexp hal
      rw [blocking_phase.eq_def, if_neg ht2]
      simp only [hexp, hal, Bool.false_eq_true, if_false, if_true]
    · intro hexp hal
      rw [blocking_phase.eq_def, if_neg ht2]
      simp only [hexp, hal, Bool.false_eq_true, if_false]

theorem acquire_blocking_spec_witness :
    (get_connection ⟨1, 10⟩ 20 5 exAlive true none wB = (none, wB)) ∧
    (get_connection ⟨1, 10⟩ 20 5 exAlive true (some ⟨0, 0, 1, false⟩) wB =
      (none, remove_connection wB ⟨0, 0, 1, false⟩)) := by
  constructor
  · exact (acquire_blocking_spec ⟨1, 10⟩ 20 5 exAlive true none wB rfl
      (by decide) (by decide)).1 rfl
  · exact ((acquire_blocking_spec ⟨1, 10⟩ 20 5 exAlive true
      (some ⟨0, 0, 1, false⟩) wB rfl (by decide) (by decide)).2
      ⟨0, 0, 1, false⟩ rfl).1 (by decide)
/-- C8: reuse round-trip — on a capacity-1 pool, acquire at `t0` (creating
connection 0), release at `t1` with the link alive, then acquire again at
`t2` with `t2 - t1 ≤ ttl`: the second acquire returns the very same
connection 0 (same identity, `created_at` still `t0`), not a new one.
Every set lookup on this trace hits: the fields are unchanged between each
insertion and the corresponding lookup. -/
theorem reuse_round_trip (ttl t0 t1 t2 timeout1 timeout2 : Int)
    (alive : Nat → Bool)
    (httl : 0 ≤ ttl) (h12 : t2 - t1 ≤ ttl)
    (ht1 : 0 < timeout1) (ht2 : 0 < timeout2)
    (hal : alive 0 = true) :
    (get_connection ⟨1, ttl⟩ t0 timeout1 alive true none initialState).1 =
      some ⟨0, t0, t0, true⟩ ∧
    (return_connection ⟨1, ttl⟩ t1 alive ⟨0, t0, t0, true⟩
      (get_connection ⟨1, ttl⟩ t0 timeout1 alive true none initialState).2).1 =
      true ∧
    (get_connection ⟨1, ttl⟩ t2 timeout2 alive true none
      (return_connection ⟨1, ttl⟩ t1 alive ⟨0, t0, t0, true⟩
        (get_connection ⟨1, ttl⟩ t0 timeout1 alive true none
          initialState).2).2).1 = some ⟨0, t0, t2, true⟩ := by
  have d1 : decide (t1 - t1 > ttl) = false := decide_eq_false (by omega)
  have d2 : decide (t2 - t1 > ttl) = false := decide_eq_false (by omega)
  have h1 : get_connection ⟨1, ttl⟩ t0 timeout1 alive true none initialState =
      (some ⟨0, t0, t0, true⟩,
       { available_connections := []
         all_connections := insert ⟨0, t0, t0, true⟩ ∅
         borrowed_connections := insert ⟨0, t0, t0, true⟩ ∅
         nextId := 1
         cleanup_running := true
         closed := [] }) := by
    rw [get_connection, if_pos ht1]
    show create_or_wait _ t0 timeout1 alive true none
      { initialState with available_connections := [] } = _
    rw [create_or_wait, if_pos (by simp [initialState])]
    simp [initialState]
  have h2 : return_connection ⟨1, ttl⟩ t1 alive ⟨0, t0, t0, true⟩
      (get_connection ⟨1, ttl⟩ t0 timeout1 alive true none initialState).2 =
      (true,
       { available_connections := [⟨0, t0, t1, false⟩]
         all_connections := insert ⟨0, t0, t0, true⟩ ∅
         borrowed_connections :=
           Finset.erase (insert ⟨0, t0, t0, true⟩ ∅) ⟨0, t0, t0, true⟩
         nextId := 1
         cleanup_running := true
         closed := [] }) := by
    rw [h1]
    rw [return_connection, if_pos (by simp)]
    simp only [is_expired, d1]
    simp [hal]
  refine ⟨by rw [h1], by rw [h2], ?_⟩
  rw [h2]
  rw [get_connection, if_pos ht2]
  dsimp only
  rw [drain_loop, if_neg (by simp only [is_expired]; rw [d2]; simp),
      if_pos hal]

theorem reuse_round_trip_witness :
    (get_connection ⟨1, 10⟩ 0 5 exAlive true none initialState).1 =
      some ⟨0, 0, 0, true⟩ ∧
    (return_connection ⟨1, 10⟩ 1 exAlive ⟨0, 0, 0, true⟩
      (get_connection ⟨1, 10⟩ 0 5 exAlive true none initialState).2).1 =
      true ∧
    (get_connection ⟨1, 10⟩ 2 5 exAlive true none
      (return_connection ⟨1, 10⟩ 1 exAlive ⟨0, 0, 0, true⟩
        (get_connection ⟨1, 10⟩ 0 5 exAlive true none
          initialState).2).2).1 = some ⟨0, 0, 2, true⟩ :=
  reuse_round_trip 10 0 1 2 5 5 exAlive (by decide) (by decide) (by decide)
    (by decide) (by decide)

def zCfg : PoolConfig := ⟨1, 0⟩
def zS2 : PoolState :=
  (return_connection zCfg 5 exAlive ⟨0, 5, 5, true⟩
    (get_connection zCfg 5 9 exAlive true none initialState).2).2

/-- C9 counterexample: the claim fails on the code.  With `ttl = 0`, an
idle connection whose elapsed idle time is zero is *not* expired (the test
`now - last_used > ttl` is strict), so `get_connection` at the same
instant pops connection 0 from the idle queue and reuses it — its registry
entry remains, no socket is closed, and no new connection is created. -/
theorem ttl_zero_reuse :
    zS2.available_connections = [⟨0, 5, 5, false⟩] ∧
    (get_connection zCfg 5 9 exAlive true none zS2).1 = some ⟨0, 5, 5, true⟩ ∧
    ⟨0, 5, 5, true⟩ ∈
      (get_connection zCfg 5 9 exAlive true none zS2).2.all_connections ∧
    (get_connection zCfg 5 9 exAlive true none zS2).2.closed = [] :=
  ⟨by decide, by decide, by decide, by decide⟩

theorem drain_loop_nextId (cfg : PoolConfig) (now : Int) (alive : Nat → Bool)
    (l : List PooledConnection) :
    ∀ s : PoolState, (drain_loop cfg now alive l s).2.nextId = s.nextId := by
  induction l with
  | nil => intro s; rw [drain_loop]
  | cons conn rest ih =>
      intro s
      rw [drain_loop]
      split_ifs with h1 h2
      · rw [ih]; rfl
      · rfl
      · rw [ih]; rfl

theorem drain_loop_all_expired (cfg : PoolConfig) (now : Int)
    (alive : Nat → Bool) (l : List PooledConnection) :
    ∀ s : PoolState,
      (∀ c ∈ l, is_expired c cfg.connection_ttl now = true) →
      (drain_loop cfg now alive l s).1 = none := by
  induction l with
  | nil => intro s _; rw [drain_loop]
  | cons conn rest ih =>
      intro s h
      rw [drain_loop, if_pos (h conn (List.mem_cons_self _ _))]
      exact ih _ (fun c hc => h c (List.mem_cons_of_mem _ hc))

theorem blocking_phase_stale_none (cfg : PoolConfig) (now timeout : Int)
    (alive : Nat → Bool) (arrival : Option PooledConnection) (s : PoolState)
    (httl : cfg.connection_ttl = 0)
    (harr : ∀ q, arrival = some q → q.last_used < now) :
    (blocking_phase cfg now timeout alive arrival s).1 = none := by
  rw [blocking_phase.eq_def]
  by_cases ht : timeout ≤ 0
  · rw [if_pos ht]
  · rw [if_neg ht]
    match arrival, harr with
    | none, _ => rfl
    | some q, harr =>
        dsimp only
        rw [if_pos (by
          simp only [is_expired, httl]
          exact decide_eq_true (by have := harr q rfl; omega))]

theorem create_or_wait_fresh (cfg : PoolConfig) (now timeout : Int)
    (alive : Nat → Bool) (connect_ok : Bool) (arrival : Option PooledConnection)
    (s : PoolState) (c : PooledConnection)
    (httl : cfg.connection_ttl = 0)
    (harr : ∀ q, arrival = some q → q.last_used < now)
    (h : (create_or_wait cfg now timeout alive connect_ok arrival s).1 =
      some c) :
    c.id = s.nextId ∧ c.created_at = now ∧ c.last_used = now := by
  rw [create_or_wait] at h
  by_cases hcap : s.all_connections.card < cfg.max_connections
  · rw [if_pos hcap] at h
    by_cases hok : connect_ok
    · rw [if_pos hok] at h
      have : (⟨s.nextId, now, now, true⟩ : PooledConnection) = c :=
        Option.some.inj h
      rw [← this]
      exact ⟨rfl, rfl, rfl⟩
    · rw [if_neg hok] at h
      rw [blocking_phase_stale_none cfg now timeout alive arrival s httl harr]
        at h
      cases h
  · rw [if_neg hcap] at h
    rw [blocking_phase_stale_none cfg now timeout alive arrival s httl harr]
      at h
    cases h

/-- C9 amended: with `ttl = 0` every idle connection whose elapsed idle
time is positive is expired, so `get_connection` never reuses such a
connection — whenever every queued (and every arriving) connection has
`last_used` strictly in the past, any connection the call returns is
freshly created (its id is the fresh identity, and both timestamps are
`now`).  Only a connection with zero elapsed idle time can be reused (the
expiry test is strict). -/
theorem ttl_zero_no_stale_reuse (cfg : PoolConfig) (now timeout : Int)
    (alive : Nat → Bool) (connect_ok : Bool) (arrival : Option PooledConnection)
    (s : PoolState) (c : PooledConnection)
    (httl : cfg.connection_ttl = 0)
    (hstale : ∀ q ∈ s.available_connections, q.last_used < now)
    (harr : ∀ q, arrival = some q → q.last_used < now)
    (hret : (get_connection cfg now timeout alive connect_ok arrival s).1 =
      some c) :
    c.id = s.nextId ∧ c.created_at = now ∧ c.last_used = now := by
  rw [get_connection] at hret
  by_cases ht : 0 < timeout
  · rw [if_pos ht] at hret
    have hexp : ∀ q ∈ s.available_connections,
        is_expired q cfg.connection_ttl now = true := by
      intro q hq
      simp only [is_expired, httl]
      exact decide_eq_true (by have := hstale q hq; omega)
    have hnone := drain_loop_all_expired cfg now alive
      s.available_connections s hexp
    have hnext := drain_loop_nextId cfg now alive s.available_connections s
    rcases hdr : drain_loop cfg now alive s.available_connections s with ⟨r, s1⟩
    rw [hdr] at hret hnone hnext
    simp only at hnone hnext
    subst hnone
    have := create_or_wait_fresh cfg now timeout alive connect_ok arrival s1 c
      httl harr hret
    rw [hnext] at this
    exact this
  · rw [if_neg ht] at hret
    exact create_or_wait_fresh cfg now timeout alive connect_ok arrival s c
      httl harr hret

theorem ttl_zero_no_stale_reuse_witness :
    (get_connection ⟨2, 0⟩ 6 9 exAlive true none zS2).1 =
      some ⟨1, 6, 6, true⟩ ∧
    (1 : Nat) = zS2.nextId := by
  have hc : (get_connection ⟨2, 0⟩ 6 9 exAlive true none zS2).1 =
      some ⟨1, 6, 6, true⟩ := by decide
  have h := ttl_zero_no_stale_reuse ⟨2, 0⟩ 6 9 exAlive true none zS2
    ⟨1, 6, 6, true⟩ rfl (by decide) (by intro q hq; cases hq) hc
  exact ⟨hc, h.1.symm⟩

end ConnectionPool
